import Mathlib

/-! Verification of the concept-model synthesis pipeline.

This file is a shallow embedding, in Lean 4, of the core of the pipeline that
turns a scanned repository into a Dubberly-style concept model:

* `extractSnippets` (from `core/extractSnippets.ts`),
* the Enrichment Stage `enrichProjectModels` / `buildConceptEnrichmentPrompt`
  (from `core/generateConcepts.ts`),
* the flat-document Discovery convergence loop `discoverConcepts` and the
  Rationalization merge `rationalizeContexts` (from the flat-document variant
  of `generateConcepts.ts`),
* the Story Synthesis output contract (modelled from the specification, since
  only the `StoryView`/`StoryStep` type declarations and a viewer consumer
  appear in the sources).

The external generation oracle (`callLLM`) is modelled as a function supplied
as a parameter: for the Enrichment Stage it maps the user-message prompt to
either a parsed result or a transport/schema error; for the Discovery loop it
maps the iteration number to the list of concept candidates of that response.
File contents (`fs.readFileSync`) are modelled by a function from paths to
strings.  JavaScript arrays become `List`, optional fields become `Option`,
and object spread is written out field by field.
-/

namespace Conceptual

/-- Structure `FileInfo` from `scanRepo.ts`: one scanned source file
(`{ path, relativePath, size }`). -/
structure FileInfo where
  path : String
  relativePath : String
  size : Nat
  deriving DecidableEq

/-- Structure `FileSnippet` from `extractSnippets.ts`. -/
structure FileSnippet where
  relativePath : String
  snippet : String
  deriving DecidableEq

/-- Function `extractSnippets` from `extractSnippets.ts`:
sort the files by ascending `size` (JavaScript `Array.prototype.sort` with the
comparator `a.size - b.size` is a stable ascending sort, modelled by the stable
`List.mergeSort`), keep the first `maxFiles`, and take the first
`maxCharsPerFile` characters of each file body (`raw.slice(0, maxCharsPerFile)`
becomes `String.take`).  `read` stands for `fs.readFileSync(file.path)`.
The TypeScript defaults are `maxFiles = 30` and `maxCharsPerFile = 2000`, and
every call site in the sources uses the defaults. -/
def extractSnippets (read : String → String) (files : List FileInfo)
    (maxFiles : Nat) (maxCharsPerFile : Nat) : List FileSnippet :=
  let selected := (files.mergeSort fun a b => decide (a.size ≤ b.size)).take maxFiles
  selected.map fun file =>
    { relativePath := file.relativePath, snippet := (read file.path).take maxCharsPerFile }

/-- Structure `ConceptExternalRef` from `types/model.ts`. -/
structure ConceptExternalRef where
  modelId : String
  conceptId : String
  note : Option String
  deriving DecidableEq

/-- Structure `Concept` from `types/model.ts`.  The `category` enum is represented by its
string value. -/
structure Concept where
  id : String
  label : String
  description : Option String
  category : Option String
  aliases : Option (List String)
  externalRefs : Option (List ConceptExternalRef)
  notes : Option String
  deriving DecidableEq

/-- The inline reference type of `DiscoveredConcept` in `generateConcepts.ts`:
`{ file: string; line?: number; symbol?: string }`. -/
structure CodeReference where
  file : String
  line : Option Nat
  symbol : Option String
  deriving DecidableEq

/-- Structure `DiscoveredConcept` from `generateConcepts.ts`: a `Concept` that still
carries its code-evidence `references`. -/
structure DiscoveredConcept extends Concept where
  references : List CodeReference
  deriving DecidableEq

/-- Structure `Relationship` from `types/model.ts`.  The source fields `from` and `to`
are Lean keywords and are rendered as `fromId` and `toId`. -/
structure Relationship where
  id : String
  fromId : String
  toId : String
  phrase : Option String
  category : Option String
  description : Option String
  notes : Option String
  deriving DecidableEq

/-- Structure `ModelRule` from `types/model.ts`. -/
structure ModelRule where
  id : String
  title : String
  text : String
  kind : Option String
  conceptIds : Option (List String)
  relationshipIds : Option (List String)
  notes : Option String
  deriving DecidableEq

/-- Structure `ConceptLifecycle` from `types/model.ts`. -/
structure ConceptLifecycle where
  id : String
  subjectConceptId : String
  stateConceptIds : List String
  transitionRelationshipIds : List String
  initialStateId : Option String
  terminalStateIds : Option (List String)
  rules : Option (List ModelRule)
  notes : Option String
  deriving DecidableEq

/-- Structure `ModelView` from `types/model.ts` (carried through Enrichment unchanged). -/
structure ModelView where
  id : String
  name : String
  description : Option String
  conceptIds : List String
  notes : Option String
  deriving DecidableEq

/-- Structure `ConceptModel` from `types/model.ts`.  The collection fields are optional
arrays in TypeScript; the Enrichment Stage reads them as `model.xs || []`, so
an absent array and an empty one are interchangeable and both are modelled by
a plain `List`. -/
structure ConceptModel where
  id : String
  title : String
  subtitle : Option String
  description : Option String
  concepts : List Concept
  relationships : List Relationship
  rules : List ModelRule
  lifecycles : List ConceptLifecycle
  views : List ModelView
  deriving DecidableEq

/-- Structure `DiscoveredModel` from `generateConcepts.ts`: a `ConceptModel` whose
concepts still carry code references. -/
structure DiscoveredModel where
  id : String
  title : String
  subtitle : Option String
  description : Option String
  concepts : List DiscoveredConcept
  relationships : List Relationship
  rules : List ModelRule
  lifecycles : List ConceptLifecycle
  views : List ModelView
  deriving DecidableEq

/-- Structure `ConceptProject` from `types/model.ts`. -/
structure ConceptProject where
  id : String
  name : String
  summary : Option String
  description : Option String
  models : List ConceptModel
  deriving DecidableEq

/-- Structure `DiscoveredProject` from `generateConcepts.ts`. -/
structure DiscoveredProject where
  id : String
  name : String
  summary : Option String
  description : Option String
  models : List DiscoveredModel
  deriving DecidableEq

/-- JavaScript template-literal interpolation of a possibly-`undefined` string:
an absent optional field prints as the text `undefined`. -/
def jsText (o : Option String) : String :=
  match o with
  | some s => s
  | none => "undefined"

/-- Function `buildConceptEnrichmentPrompt` from `generateConcepts.ts` (lines 429-499).
The TypeScript signature declares the supertypes `ConceptProject` /
`ConceptModel` / `Concept`; the only call site passes the discovered project,
the discovered model and the discovered concept, so the embedding takes those.
Literal braces of the JSON template are written `\x7b` / `\x7d` and the
apostrophe `\x27`.  The template reads only `project.name`, `model.title`,
`concept.label`, `concept.description`, `concept.id` and the snippets. -/
def buildConceptEnrichmentPrompt (project : DiscoveredProject)
    (model : DiscoveredModel) (concept : DiscoveredConcept)
    (snippets : List FileSnippet) : String :=
  let filesText := String.intercalate "\n\n"
    (snippets.map fun s => "// File: " ++ s.relativePath ++ "\n" ++ s.snippet)
  ("\nWe are analyzing the concept \"" ++ concept.label ++ "\" in the model \""
    ++ model.title ++ "\" of project \"" ++ project.name ++ "\".\n\nDescription: "
    ++ jsText concept.description
    ++ "\n\nBased on the following code snippets, provide a detailed definition of this concept, including:\n1. Aliases (synonyms used in code or comments).\n2. Relationships to other concepts (e.g. \"Order has line items\", \"User places Order\").\n3. Rules/Constraints (e.g. \"Order must have at least one item\").\n4. Lifecycles (if the concept has states, e.g. Pending -> Shipped).\n\nRemember: the concept is a **domain-level idea** from a Dubberly-style concept model.\nUse the code only as evidence to understand the concept\x27s meaning, relationships, rules, and lifecycle in the domain.\nAvoid describing frameworks, patterns, or low-level implementation details unless they clarify the domain behavior.\n\nCode Snippets:\n```ts\n"
    ++ filesText
    ++ "\n```\n\nReturn a JSON object with this structure:\n\x7b\n  \"concept\": \x7b\n    \"aliases\": [\"string\"],\n    \"notes\": \"string (implementation details, usage notes)\"\n  \x7d,\n  \"relationships\": [\n    \x7b\n      \"id\": \"rel-id\",\n      \"from\": \""
    ++ concept.id
    ++ "\",\n      \"to\": \"target-concept-id\",\n      \"phrase\": \"verb phrase (e.g. has, places, contains)\",\n      \"category\": \"is_a|part_of|causes|enables|prevents|precedes|uses|represents|other\",\n      \"description\": \"string\"\n    \x7d\n  ],\n  \"rules\": [\n    \x7b\n      \"id\": \"rule-id\",\n      \"title\": \"Rule Title\",\n      \"text\": \"Rule description\",\n      \"kind\": \"invariant|constraint|policy|assumption\",\n      \"conceptIds\": [\""
    ++ concept.id
    ++ "\"]\n    \x7d\n  ],\n  \"lifecycles\": [\n    \x7b\n      \"id\": \"lifecycle-id\",\n      \"subjectConceptId\": \""
    ++ concept.id
    ++ "\",\n      \"stateConceptIds\": [\"StateConceptId1\", \"StateConceptId2\"],\n      \"transitionRelationshipIds\": [],\n      \"initialStateId\": \"StateConceptId1\",\n      \"terminalStateIds\": [\"StateConceptId2\"]\n    \x7d\n  ]\n\x7d\n\nOnly return relationships/rules/lifecycles that are strongly supported by the code.\nDo not explain your reasoning. Return ONLY valid JSON.\n").trim

/-- The `Partial<Concept>` payload of an enrichment response: every field is
optional, `none` meaning the key is absent from the returned JSON object. -/
structure ConceptPatch where
  id : Option String
  label : Option String
  description : Option String
  category : Option String
  aliases : Option (List String)
  externalRefs : Option (List ConceptExternalRef)
  notes : Option String
  deriving DecidableEq

/-- The parsed shape of one enrichment response in `enrichProjectModels`:
`{ concept: Partial<Concept>; relationships; rules; lifecycles }`.  The three
arrays are optional in the source (`if (enrichment.relationships) ...`); an
absent array behaves exactly like an empty one, so both are a `List`. -/
structure EnrichmentResult where
  concept : ConceptPatch
  relationships : List Relationship
  rules : List ModelRule
  lifecycles : List ConceptLifecycle
  deriving DecidableEq

/-- Outcome of one `callLLM` invocation: a parsed value, or a thrown
transport/schema error. -/
inductive OracleReply where
  | ok (e : EnrichmentResult)
  | err
  deriving DecidableEq

/-- Object-spread semantics of a `Partial` field: a key present in the payload
overrides the base value, an absent key keeps it. -/
def spreadOpt {α : Type} (patch base : Option α) : Option α :=
  match patch with
  | some v => some v
  | none => base

/-- The merge `{ ...baseConcept, ...enrichment.concept, id: concept.id }` in
`enrichProjectModels` (lines 142-149): spread the base concept (without its
`references`), spread the oracle payload over it, then force `id` back to the
original concept id.  Note that only `id` is forced: a `label` present in the
payload does override the original label. -/
def mergeEnrichedConcept (c : DiscoveredConcept) (p : ConceptPatch) : Concept :=
  { id := c.id
    label := (p.label).getD c.label
    description := spreadOpt p.description c.description
    category := spreadOpt p.category c.category
    aliases := spreadOpt p.aliases c.aliases
    externalRefs := spreadOpt p.externalRefs c.externalRefs
    notes := spreadOpt p.notes c.notes }

/-- Helper for `dedupFirst`: walk the list keeping the elements already seen. -/
def dedupFirstAux (seen : List String) : List String → List String
  | [] => []
  | x :: xs =>
    if seen.contains x then dedupFirstAux seen xs
    else x :: dedupFirstAux (seen ++ [x]) xs

/-- JavaScript `[...new Set(xs)]`: deduplicate keeping the first occurrence, preserving
insertion order. -/
def dedupFirst (l : List String) : List String :=
  dedupFirstAux [] l

/-- The file-resolution step of `enrichProjectModels` (lines 106-107):
`relevantFilePaths = [...new Set(concept.references.map(ref => ref.file))]`,
`relevantFiles = files.filter(f => relevantFilePaths.includes(f.relativePath))`. -/
def relevantFilesFor (files : List FileInfo) (c : DiscoveredConcept) : List FileInfo :=
  let relevantFilePaths := dedupFirst (c.references.map fun ref => ref.file)
  files.filter fun f => relevantFilePaths.contains f.relativePath

/-- The body of the per-concept loop of `enrichProjectModels` (lines 102-159),
as the concept it appends to `enrichedConcepts`:
* no relevant files resolve → the concept is kept as-is minus its
  `references` (`const \x7b references, ...cleanConcept \x7d = concept`);
* the oracle call succeeds → the merged concept;
* the oracle call throws → again the clean skeleton.
`oracle` maps the user-message prompt of the call to its outcome. -/
def conceptStep (read : String → String) (oracle : String → OracleReply)
    (project : DiscoveredProject) (model : DiscoveredModel)
    (files : List FileInfo) (c : DiscoveredConcept) : Concept :=
  let relevantFiles := relevantFilesFor files c
  if relevantFiles.isEmpty then
    c.toConcept
  else
    let snippets := extractSnippets read relevantFiles 30 2000
    let prompt := buildConceptEnrichmentPrompt project model c snippets
    match oracle prompt with
    | .ok e => mergeEnrichedConcept c e.concept
    | .err => c.toConcept

/-- The relationships the per-concept loop body appends to the accumulator
`allRelationships` for one concept (empty unless the call succeeds). -/
def conceptStepRels (read : String → String) (oracle : String → OracleReply)
    (project : DiscoveredProject) (model : DiscoveredModel)
    (files : List FileInfo) (c : DiscoveredConcept) : List Relationship :=
  let relevantFiles := relevantFilesFor files c
  if relevantFiles.isEmpty then
    []
  else
    let snippets := extractSnippets read relevantFiles 30 2000
    let prompt := buildConceptEnrichmentPrompt project model c snippets
    match oracle prompt with
    | .ok e => e.relationships
    | .err => []

/-- The rules appended to `allRules` for one concept. -/
def conceptStepRules (read : String → String) (oracle : String → OracleReply)
    (project : DiscoveredProject) (model : DiscoveredModel)
    (files : List FileInfo) (c : DiscoveredConcept) : List ModelRule :=
  let relevantFiles := relevantFilesFor files c
  if relevantFiles.isEmpty then
    []
  else
    let snippets := extractSnippets read relevantFiles 30 2000
    let prompt := buildConceptEnrichmentPrompt project model c snippets
    match oracle prompt with
    | .ok e => e.rules
    | .err => []

/-- The lifecycles appended to `allLifecycles` for one concept. -/
def conceptStepLifecycles (read : String → String) (oracle : String → OracleReply)
    (project : DiscoveredProject) (model : DiscoveredModel)
    (files : List FileInfo) (c : DiscoveredConcept) : List ConceptLifecycle :=
  let relevantFiles := relevantFilesFor files c
  if relevantFiles.isEmpty then
    []
  else
    let snippets := extractSnippets read relevantFiles 30 2000
    let prompt := buildConceptEnrichmentPrompt project model c snippets
    match oracle prompt with
    | .ok e => e.lifecycles
    | .err => []

/-- The per-concept `for` loop of `enrichProjectModels`, threading the four
accumulators `enrichedConcepts`, `allRelationships`, `allRules`,
`allLifecycles` exactly as the source mutates them. -/
def enrichConceptsLoop (read : String → String) (oracle : String → OracleReply)
    (project : DiscoveredProject) (model : DiscoveredModel) (files : List FileInfo) :
    List DiscoveredConcept →
    List Concept → List Relationship → List ModelRule → List ConceptLifecycle →
    List Concept × List Relationship × List ModelRule × List ConceptLifecycle
  | [], cs, rels, rus, lcs => (cs, rels, rus, lcs)
  | c :: rest, cs, rels, rus, lcs =>
    enrichConceptsLoop read oracle project model files rest
      (cs ++ [conceptStep read oracle project model files c])
      (rels ++ conceptStepRels read oracle project model files c)
      (rus ++ conceptStepRules read oracle project model files c)
      (lcs ++ conceptStepLifecycles read oracle project model files c)

/-- The per-model body of `enrichProjectModels` (lines 95-168): start the
accumulators from the model, run the per-concept loop, and rebuild the model
with the accumulated collections (`{ ...model, concepts, relationships, rules,
lifecycles }`). -/
def enrichModel (read : String → String) (oracle : String → OracleReply)
    (project : DiscoveredProject) (files : List FileInfo)
    (model : DiscoveredModel) : ConceptModel :=
  let result := enrichConceptsLoop read oracle project model files
    model.concepts [] model.relationships model.rules model.lifecycles
  { id := model.id
    title := model.title
    subtitle := model.subtitle
    description := model.description
    concepts := result.1
    relationships := result.2.1
    rules := result.2.2.1
    lifecycles := result.2.2.2
    views := model.views }

/-- Function `enrichProjectModels` (lines 78-175): optionally limit the models
(`maxModels ? project.models.slice(0, maxModels) : project.models`, where a
JavaScript `maxModels = 0` is falsy and means no limit), enrich each model in
order, and rebuild the project. -/
def enrichProjectModels (read : String → String) (oracle : String → OracleReply)
    (project : DiscoveredProject) (files : List FileInfo)
    (maxModels : Option Nat) : ConceptProject :=
  let modelsToProcess :=
    match maxModels with
    | some k => if k = 0 then project.models else project.models.take k
    | none => project.models
  { id := project.id
    name := project.name
    summary := project.summary
    description := project.description
    models := modelsToProcess.map (enrichModel read oracle project files) }

/-- Structure `ConceptReference` from the flat-document `types/model.ts`. -/
structure ConceptReference where
  file : String
  line : Option Nat
  symbol : Option String
  deriving DecidableEq

/-- Structure `ConceptCandidate` from the flat-document `types/model.ts`:
`{ name, type, description, references }`. -/
structure ConceptCandidate where
  name : String
  type : String
  description : String
  references : List ConceptReference
  deriving DecidableEq

/-- The `while (hasMoreConcepts && iteration <= maxIterations)` loop of the
flat-document `discoverConcepts`.  `responses i` is the parsed concept list of
the oracle response of iteration `i` (the source aborts the whole run on a
transport/schema error there, so only successful responses are modelled).
One loop-body execution is one oracle call, counted in `calls`.  `fuel` is
only the structural-recursion measure: it starts at `maxIterations + 1` while
`iter` starts at `1`, so the guard `iter ≤ maxIterations` always fails before
the fuel runs out and the `0` case returns the same state the guard case
would. -/
def discoverLoop (responses : Nat → List ConceptCandidate) (maxIterations : Nat) :
    Nat → Nat → List ConceptCandidate → Bool → Nat →
    List ConceptCandidate × Nat
  | 0, _, allConcepts, _, calls => (allConcepts, calls)
  | fuel + 1, iter, allConcepts, hasMoreConcepts, calls =>
    if hasMoreConcepts && decide (iter ≤ maxIterations) then
      let result := responses iter
      -- Filter out duplicates by concept name (against the accumulator only).
      let newConcepts := result.filter fun nc =>
        !(allConcepts.any fun existing => existing.name == nc.name)
      let allConcepts2 := if newConcepts.isEmpty then allConcepts else allConcepts ++ newConcepts
      let hasMore1 := if newConcepts.isEmpty then false else hasMoreConcepts
      -- Safety check: stop if this iteration returned no concepts at all.
      let hasMore2 := if result.isEmpty then false else hasMore1
      discoverLoop responses maxIterations fuel (iter + 1) allConcepts2 hasMore2 (calls + 1)
    else (allConcepts, calls)

/-- The flat-document Discovery convergence loop `discoverConcepts`
(`part_010`, lines 773-821): accumulate concepts over at most `maxIterations`
oracle calls, deduplicating by exact name against the accumulator.  Returns
the accumulated concepts together with the number of oracle calls issued. -/
def discoverConcepts (responses : Nat → List ConceptCandidate)
    (maxIterations : Nat) : List ConceptCandidate × Nat :=
  discoverLoop responses maxIterations (maxIterations + 1) 1 [] true 0

/-- Structure `ConceptMetadata` from the flat-document `types/model.ts`; the `type` and
`criticality` enums are represented by their string values. -/
structure ConceptMetadata where
  name : String
  type : String
  boundedContext : Option String
  aggregateRoot : Option Bool
  criticality : Option String
  deriving DecidableEq

/-- Structure `ConceptDefinition` from the flat-document `types/model.ts`. -/
structure ConceptDefinition where
  shortDescription : String
  ubiquitousLanguage : Option String
  deriving DecidableEq

/-- Structure `ConceptSheet` from the flat-document `types/model.ts`.  The sections not
touched by Rationalization (`structure`, `lifecycle`, `invariants`,
`commands`, `events`, `implementation`) only ride along; they are represented
here by the `definition` section, which rides along in exactly the same way,
so that the frame of the merge is still visible. -/
structure ConceptSheet where
  metadata : ConceptMetadata
  definition : ConceptDefinition
  deriving DecidableEq

/-- One proposed context of a `ContextRationalization` response:
`{ name, description, conceptNames }`. -/
structure RationalizedContext where
  name : String
  description : String
  conceptNames : List String
  deriving DecidableEq

/-- Structure `ContextRationalization` from the flat-document `types/model.ts`. -/
structure ContextRationalization where
  contexts : List RationalizedContext
  deriving DecidableEq

/-- The name→context map of `rationalizeContexts` (`part_010`, lines 989-996):
`conceptToContext` is a JavaScript `Map` filled with `set` while iterating the
proposed contexts and then their concept names, so for a name claimed by
several contexts the **last** write wins.  This is its `get`. -/
def conceptToContextGet (contexts : List RationalizedContext) (name : String) :
    Option String :=
  contexts.foldl
    (fun acc ctx =>
      ctx.conceptNames.foldl (fun a n => if n == name then some ctx.name else a) acc)
    none

/-- The merge of `rationalizeContexts` (`part_010`, lines 999-1010), after the
single oracle call whose parsed proposal is passed in as `rationalization`:
`const newContext = conceptToContext.get(sheet.metadata.name)` followed by the
JavaScript truthiness check `if (newContext)` — true exactly when the name is
in the map *and* the mapped label is a non-empty string, since the empty
string is falsy.  In that case `metadata.boundedContext` is overwritten
(`{ ...sheet, metadata: { ...sheet.metadata, boundedContext } }`); otherwise
(name absent, or mapped label the falsy empty string) the sheet is returned
unchanged. -/
def rationalizeContexts (conceptSheets : List ConceptSheet)
    (rationalization : ContextRationalization) : List ConceptSheet :=
  conceptSheets.map fun sheet =>
    match conceptToContextGet rationalization.contexts sheet.metadata.name with
    | some newContext =>
      if newContext.isEmpty then sheet
      else { sheet with metadata := { sheet.metadata with boundedContext := some newContext } }
    | none => sheet

/-- Structure `StoryStep` from `types/model.ts`. -/
structure StoryStep where
  id : String
  index : Nat
  title : String
  narrative : Option String
  conceptIds : List String
  relationshipIds : List String
  primaryConceptIds : Option (List String)
  primaryRelationshipIds : Option (List String)
  deriving DecidableEq

/-- Structure `StoryView` from `types/model.ts`. -/
structure StoryView where
  id : String
  name : String
  description : Option String
  tags : Option (List String)
  focusConceptId : Option String
  steps : List StoryStep
  deriving DecidableEq

/-- Modelled from the spec: the Story Synthesis Stage implementation is not
under the sources (only the `StoryView`/`StoryStep` type declarations and the
viewer that consumes them are).  Per §4.4 of the specification, the stage is
one per-Model oracle call: on success the parsed list of StoryViews is stored
for the Model, and on a transport or schema failure the Model receives an
empty list instead of aborting the run.  `response` is the outcome of that
call, `none` standing for the caught failure. -/
def storySynthesizeModel (response : Option (List StoryView)) : List StoryView :=
  match response with
  | some views => views
  | none => []

/-- The output contract of the spec for one StoryView (§4.4): 3-7 StorySteps whose
`index` fields are 0-based and strictly increasing by one, i.e. step `i` has
`index = i`. -/
def storyViewContract (v : StoryView) : Bool :=
  decide (3 ≤ v.steps.length) && decide (v.steps.length ≤ 7) &&
    (v.steps.enum.all fun p => p.2.index == p.1)

/-- The output contract of the spec for the Story Synthesis result of one Model
(§4.4): 2-5 StoryViews, each satisfying `storyViewContract`. -/
def storyContract (views : List StoryView) : Bool :=
  decide (2 ≤ views.length) && decide (views.length ≤ 5) &&
    (views.all storyViewContract)

/-! ### Concrete instances used by witnesses, counterexamples and scenarios -/

/-- A minimal code reference to a file. -/
def wRef (f : String) : CodeReference :=
  { file := f, line := none, symbol := none }

/-- Concept `A` of Scenario A: its only evidence reference names `a.ts`,
which is not in the file index below, so no file resolves for it. -/
def wcA : DiscoveredConcept :=
  { id := "a", label := "A", description := some "the A idea", category := some "thing",
    aliases := none, externalRefs := none, notes := none, references := [wRef "a.ts"] }

/-- Concept `B` of Scenario A: one resolvable reference, to `b.ts`. -/
def wcB : DiscoveredConcept :=
  { id := "b", label := "B", description := some "the B idea", category := some "thing",
    aliases := none, externalRefs := none, notes := none, references := [wRef "b.ts"] }

/-- The file index of the concrete scenarios: only `b.ts` exists. -/
def wFiles : List FileInfo :=
  [{ path := "/repo/b.ts", relativePath := "b.ts", size := 10 }]

/-- A skeleton model holding the two concepts `A` and `B`. -/
def wModel : DiscoveredModel :=
  { id := "m", title := "M", subtitle := none, description := none,
    concepts := [wcA, wcB], relationships := [], rules := [], lifecycles := [], views := [] }

/-- The discovered project wrapping `wModel`. -/
def wProj : DiscoveredProject :=
  { id := "p", name := "P", summary := none, description := none, models := [wModel] }

/-- Concrete file contents. -/
def wRead : String → String := fun _ => "export const b = 1;"

/-- A relationship returned by the concrete successful enrichment. -/
def wRel : Relationship :=
  { id := "r1", fromId := "b", toId := "a", phrase := some "uses", category := some "uses",
    description := none, notes := none }

/-- A well-behaved enrichment payload: no `label` key, some aliases and notes. -/
def wPatch : ConceptPatch :=
  { id := none, label := none, description := none, category := none,
    aliases := some ["bee"], externalRefs := none, notes := some "seen in b.ts" }

/-- The concrete successful enrichment result. -/
def wEnrich : EnrichmentResult :=
  { concept := wPatch, relationships := [wRel], rules := [], lifecycles := [] }

/-- An oracle that answers every enrichment call with `wEnrich`. -/
def wOracleOk : String → OracleReply := fun _ => .ok wEnrich

/-- An oracle whose every call fails with a transport/schema error. -/
def wOracleErr : String → OracleReply := fun _ => .err

/-- A payload that *does* carry a `label` key, as nothing stops the external
oracle from returning one. -/
def xPatch : ConceptPatch :=
  { id := none, label := some "Renamed", description := none, category := none,
    aliases := none, externalRefs := none, notes := none }

/-- The enrichment result carrying `xPatch`. -/
def xEnrich : EnrichmentResult :=
  { concept := xPatch, relationships := [], rules := [], lifecycles := [] }

/-- An oracle that answers every enrichment call with `xEnrich`. -/
def xOracle : String → OracleReply := fun _ => .ok xEnrich

/-- A model containing only concept `B` (no sibling, no accumulated
relationships), for comparison against `mSib`. -/
def mAlone : DiscoveredModel :=
  { id := "m", title := "M", subtitle := none, description := none,
    concepts := [wcB], relationships := [], rules := [], lifecycles := [], views := [] }

/-- The same model with sibling concept `A` present and a relationship already
accumulated. -/
def mSib : DiscoveredModel :=
  { id := "m", title := "M", subtitle := none, description := none,
    concepts := [wcA, wcB], relationships := [wRel], rules := [], lifecycles := [], views := [] }

/-- A concrete snippet list for prompt comparisons. -/
def wSnips : List FileSnippet :=
  [{ relativePath := "b.ts", snippet := "export const b = 1;" }]

/-- A concept candidate with the given name. -/
def wCand (n : String) : ConceptCandidate :=
  { name := n, type := "entity", description := "candidate", references := [] }

/-- A second candidate that shares the name `X` with `wCand "X"` but differs
in its description. -/
def wCandX2 : ConceptCandidate :=
  { name := "X", type := "entity", description := "another candidate", references := [] }

/-- A response sequence whose single response contains two candidates with
the same name `X`. -/
def dupResponses : Nat → List ConceptCandidate := fun _ => [wCand "X", wCandX2]

/-- A never-stabilizing response sequence: every iteration returns one
fresh candidate name. -/
def freshResponses : Nat → List ConceptCandidate := fun i => [wCand (toString i)]

/-- A concept sheet with the given name and bounded context. -/
def wSheet (n : String) (ctx : String) : ConceptSheet :=
  { metadata :=
      { name := n
        type := "entity"
        boundedContext := some ctx
        aggregateRoot := none
        criticality := none }
    definition :=
      { shortDescription := "sheet " ++ n
        ubiquitousLanguage := none } }

/-- Scenario D input: contexts `Billing: [a, b]`, `Payments: [c]`. -/
def dSheets : List ConceptSheet :=
  [wSheet "a" "Billing", wSheet "b" "Billing", wSheet "c" "Payments"]

/-- Scenario D proposal: one consolidated context `Finance: [a, b, c]`. -/
def dProposal : ContextRationalization :=
  { contexts :=
      [{ name := "Finance"
         description := "money things"
         conceptNames := ["a", "b", "c"] }] }

/-- A degenerate proposal whose single consolidated context carries the empty
string as its name, so the name→label map sends `"a"` to the falsy `""`. -/
def eProposal : ContextRationalization :=
  { contexts :=
      [{ name := ""
         description := "unnamed context"
         conceptNames := ["a"] }] }

/-- The one-document input of the empty-label counterexample. -/
def eSheets : List ConceptSheet := [wSheet "a" "Billing"]

/-- A story step with the given index, referencing two concepts and one
relationship. -/
def wStep (i : Nat) : StoryStep :=
  { id := "s" ++ toString i, index := i, title := "step " ++ toString i,
    narrative := some "narrative", conceptIds := ["a", "b"], relationshipIds := ["r1"],
    primaryConceptIds := none, primaryRelationshipIds := none }

/-- A story view made of three correctly indexed steps. -/
def wStory (n : String) : StoryView :=
  { id := n, name := n, description := none, tags := none, focusConceptId := none,
    steps := [wStep 0, wStep 1, wStep 2] }

/-- A contract-satisfying Story Synthesis response: two views of three steps. -/
def wStories : List StoryView := [wStory "happy path", wStory "error path"]

/-- The single input file of the `extractSnippets` witness. -/
def wFileW : FileInfo := { path := "/repo/w.ts", relativePath := "w.ts", size := 7 }

/-- The snippet `extractSnippets` produces for `wFileW`. -/
def wSnipOut : FileSnippet :=
  { relativePath := wFileW.relativePath, snippet := (wRead wFileW.path).take 2000 }

/-! ### Characterization of the Enrichment loop -/

theorem enrichConceptsLoop_eq (read : String → String) (oracle : String → OracleReply)
    (project : DiscoveredProject) (model : DiscoveredModel) (files : List FileInfo)
    (l : List DiscoveredConcept) (cs : List Concept) (rels : List Relationship)
    (rus : List ModelRule) (lcs : List ConceptLifecycle) :
    enrichConceptsLoop read oracle project model files l cs rels rus lcs =
      (cs ++ l.map (conceptStep read oracle project model files),
       rels ++ l.flatMap (conceptStepRels read oracle project model files),
       rus ++ l.flatMap (conceptStepRules read oracle project model files),
       lcs ++ l.flatMap (conceptStepLifecycles read oracle project model files)) := by
  induction l generalizing cs rels rus lcs with
  | nil => simp [enrichConceptsLoop]
  | cons c rest ih => simp [enrichConceptsLoop, ih, List.append_assoc]

theorem enrichModel_concepts (read : String → String) (oracle : String → OracleReply)
    (project : DiscoveredProject) (files : List FileInfo) (model : DiscoveredModel) :
    (enrichModel read oracle project files model).concepts =
      model.concepts.map (conceptStep read oracle project model files) := by
  simp [enrichModel, enrichConceptsLoop_eq]

theorem enrichModel_relationships (read : String → String) (oracle : String → OracleReply)
    (project : DiscoveredProject) (files : List FileInfo) (model : DiscoveredModel) :
    (enrichModel read oracle project files model).relationships =
      model.relationships ++
        model.concepts.flatMap (conceptStepRels read oracle project model files) := by
  simp [enrichModel, enrichConceptsLoop_eq]

theorem enrichModel_rules (read : String → String) (oracle : String → OracleReply)
    (project : DiscoveredProject) (files : List FileInfo) (model : DiscoveredModel) :
    (enrichModel read oracle project files model).rules =
      model.rules ++
        model.concepts.flatMap (conceptStepRules read oracle project model files) := by
  simp [enrichModel, enrichConceptsLoop_eq]

theorem enrichModel_lifecycles (read : String → String) (oracle : String → OracleReply)
    (project : DiscoveredProject) (files : List FileInfo) (model : DiscoveredModel) :
    (enrichModel read oracle project files model).lifecycles =
      model.lifecycles ++
        model.concepts.flatMap (conceptStepLifecycles read oracle project model files) := by
  simp [enrichModel, enrichConceptsLoop_eq]

theorem conceptStep_id (read : String → String) (oracle : String → OracleReply)
    (project : DiscoveredProject) (model : DiscoveredModel) (files : List FileInfo)
    (c : DiscoveredConcept) :
    (conceptStep read oracle project model files c).id = c.id := by
  simp only [conceptStep]
  split
  · rfl
  · split <;> rfl

theorem conceptStep_of_noFiles (read : String → String) (oracle : String → OracleReply)
    (project : DiscoveredProject) (model : DiscoveredModel) (files : List FileInfo)
    (c : DiscoveredConcept) (hres : (relevantFilesFor files c).isEmpty = true) :
    conceptStep read oracle project model files c = c.toConcept := by
  simp [conceptStep, hres]

theorem conceptStep_of_err (read : String → String) (oracle : String → OracleReply)
    (project : DiscoveredProject) (model : DiscoveredModel) (files : List FileInfo)
    (c : DiscoveredConcept) (hres : (relevantFilesFor files c).isEmpty = false)
    (herr : oracle (buildConceptEnrichmentPrompt project model c
      (extractSnippets read (relevantFilesFor files c) 30 2000)) = .err) :
    conceptStep read oracle project model files c = c.toConcept := by
  simp [conceptStep, hres, herr]

theorem conceptStep_of_ok (read : String → String) (oracle : String → OracleReply)
    (project : DiscoveredProject) (model : DiscoveredModel) (files : List FileInfo)
    (c : DiscoveredConcept) (e : EnrichmentResult)
    (hres : (relevantFilesFor files c).isEmpty = false)
    (hok : oracle (buildConceptEnrichmentPrompt project model c
      (extractSnippets read (relevantFilesFor files c) 30 2000)) = .ok e) :
    conceptStep read oracle project model files c = mergeEnrichedConcept c e.concept := by
  simp [conceptStep, hres, hok]

theorem conceptStepRels_of_ok (read : String → String) (oracle : String → OracleReply)
    (project : DiscoveredProject) (model : DiscoveredModel) (files : List FileInfo)
    (c : DiscoveredConcept) (e : EnrichmentResult)
    (hres : (relevantFilesFor files c).isEmpty = false)
    (hok : oracle (buildConceptEnrichmentPrompt project model c
      (extractSnippets read (relevantFilesFor files c) 30 2000)) = .ok e) :
    conceptStepRels read oracle project model files c = e.relationships := by
  simp [conceptStepRels, hres, hok]

theorem conceptStepRules_of_ok (read : String → String) (oracle : String → OracleReply)
    (project : DiscoveredProject) (model : DiscoveredModel) (files : List FileInfo)
    (c : DiscoveredConcept) (e : EnrichmentResult)
    (hres : (relevantFilesFor files c).isEmpty = false)
    (hok : oracle (buildConceptEnrichmentPrompt project model c
      (extractSnippets read (relevantFilesFor files c) 30 2000)) = .ok e) :
    conceptStepRules read oracle project model files c = e.rules := by
  simp [conceptStepRules, hres, hok]

theorem conceptStepLifecycles_of_ok (read : String → String) (oracle : String → OracleReply)
    (project : DiscoveredProject) (model : DiscoveredModel) (files : List FileInfo)
    (c : DiscoveredConcept) (e : EnrichmentResult)
    (hres : (relevantFilesFor files c).isEmpty = false)
    (hok : oracle (buildConceptEnrichmentPrompt project model c
      (extractSnippets read (relevantFilesFor files c) 30 2000)) = .ok e) :
    conceptStepLifecycles read oracle project model files c = e.lifecycles := by
  simp [conceptStepLifecycles, hres, hok]

/-! ### Claim theorems: Enrichment Stage -/

/-- Claim C1: for every Model and every concept in it whose oracle call fails
with a transport or schema error, the error is caught, the concept is emitted
into the enriched Model as its un-enriched skeleton — label and description
unchanged, only the evidence references removed (`DiscoveredConcept.toConcept`
is exactly the concept without its `references` field) — and every concept of
the Model, in particular every subsequent one, is still processed by the
normal per-concept step; the failure never aborts the run (the enriched
concept list always has the full length). -/
theorem enrichment_per_unit_isolation (read : String → String)
    (oracle : String → OracleReply) (project : DiscoveredProject)
    (files : List FileInfo) (model : DiscoveredModel)
    (i : Nat) (c : DiscoveredConcept) (hc : model.concepts[i]? = some c)
    (hres : (relevantFilesFor files c).isEmpty = false)
    (herr : oracle (buildConceptEnrichmentPrompt project model c
      (extractSnippets read (relevantFilesFor files c) 30 2000)) = .err) :
    (enrichModel read oracle project files model).concepts.length =
      model.concepts.length ∧
    (enrichModel read oracle project files model).concepts[i]? = some c.toConcept ∧
    c.toConcept.label = c.label ∧ c.toConcept.description = c.description ∧
    ∀ j : Nat, (enrichModel read oracle project files model).concepts[j]? =
      (model.concepts[j]?).map (conceptStep read oracle project model files) := by
  refine ⟨?_, ?_, rfl, rfl, ?_⟩
  · rw [enrichModel_concepts, List.length_map]
  · rw [enrichModel_concepts, List.getElem?_map, hc]
    simp [conceptStep_of_err read oracle project model files c hres herr]
  · intro j
    rw [enrichModel_concepts, List.getElem?_map]

/-- Witness for C1 at a concrete input: a model holding only concept `B`,
whose file resolves, and an oracle that always fails; `B` comes out as its
skeleton without references. -/
theorem enrichment_per_unit_isolation_witness :
    (enrichModel wRead wOracleErr wProj wFiles mAlone).concepts[0]? =
      some wcB.toConcept := by
  have h := enrichment_per_unit_isolation wRead wOracleErr wProj wFiles mAlone 0 wcB
    (by decide) (by decide) rfl
  exact h.2.1

/-- Claim C3: accumulation during Enrichment is append-only — for every Model
and every sequence of per-concept outcomes (encoded by the arbitrary `oracle`
function), the relationships, rules and lifecycles of the enriched Model
extend the original collections of the Model as a prefix (nothing is removed,
elements are only appended at the back), and the concept list keeps exactly
the Discovery concepts, position by position, with unchanged ids. -/
theorem enrichment_append_only (read : String → String)
    (oracle : String → OracleReply) (project : DiscoveredProject)
    (files : List FileInfo) (model : DiscoveredModel) :
    model.relationships <+: (enrichModel read oracle project files model).relationships ∧
    model.rules <+: (enrichModel read oracle project files model).rules ∧
    model.lifecycles <+: (enrichModel read oracle project files model).lifecycles ∧
    ((enrichModel read oracle project files model).concepts.map fun c => c.id) =
      (model.concepts.map fun c => c.id) ∧
    (enrichModel read oracle project files model).concepts.length =
      model.concepts.length := by
  refine ⟨?_, ?_, ?_, ?_, ?_⟩
  · rw [enrichModel_relationships]
    exact List.prefix_append _ _
  · rw [enrichModel_rules]
    exact List.prefix_append _ _
  · rw [enrichModel_lifecycles]
    exact List.prefix_append _ _
  · rw [enrichModel_concepts, List.map_map]
    exact List.map_congr_left fun c _ =>
      conceptStep_id read oracle project model files c
  · rw [enrichModel_concepts, List.length_map]

/-- Claim C4 counterexample: the claim says the merge preserves the label of the concept, but the source forces only `id` back after the spread
(`{ ...baseConcept, ...enrichment.concept, id: concept.id }`): a successful
enrichment whose payload carries a `label` key overwrites the label.  Concept
`B`, labelled `"B"` at Discovery, comes out labelled `"Renamed"`. -/
theorem enrichment_merge_label_counterexample :
    ((enrichModel wRead xOracle wProj wFiles mAlone).concepts.map fun c => c.label) =
      ["Renamed"] ∧
    (mAlone.concepts.map fun c => c.label) = ["B"] :=
  ⟨rfl, rfl⟩

/-- Claim C4 (amended): on a successful enrichment call the merge preserves
the id of the concept unconditionally, preserves the label whenever the returned
concept payload does not itself carry a `label` key (the prompt only asks for
aliases and notes, but the response is not validated), and the returned
relationships, rules and lifecycles are appended to the accumulators of the
Model (they appear contiguously in the enriched collections). -/
theorem enrichment_merge_amended (read : String → String)
    (oracle : String → OracleReply) (project : DiscoveredProject)
    (files : List FileInfo) (model : DiscoveredModel)
    (i : Nat) (c : DiscoveredConcept) (e : EnrichmentResult)
    (hc : model.concepts[i]? = some c)
    (hres : (relevantFilesFor files c).isEmpty = false)
    (hok : oracle (buildConceptEnrichmentPrompt project model c
      (extractSnippets read (relevantFilesFor files c) 30 2000)) = .ok e)
    (hlabel : e.concept.label = none) :
    (enrichModel read oracle project files model).concepts[i]? =
      some (mergeEnrichedConcept c e.concept) ∧
    (mergeEnrichedConcept c e.concept).id = c.id ∧
    (mergeEnrichedConcept c e.concept).label = c.label ∧
    e.relationships <:+: (enrichModel read oracle project files model).relationships ∧
    e.rules <:+: (enrichModel read oracle project files model).rules ∧
    e.lifecycles <:+: (enrichModel read oracle project files model).lifecycles := by
  have hmem : c ∈ model.concepts := List.getElem?_mem hc
  obtain ⟨s, t, hst⟩ := List.append_of_mem hmem
  refine ⟨?_, rfl, ?_, ?_, ?_, ?_⟩
  · rw [enrichModel_concepts, List.getElem?_map, hc]
    simp [conceptStep_of_ok read oracle project model files c e hres hok]
  · simp [mergeEnrichedConcept, hlabel]
  · rw [enrichModel_relationships, hst, List.flatMap_append, List.flatMap_cons,
      conceptStepRels_of_ok read oracle project model files c e hres hok]
    exact ⟨model.relationships ++
        s.flatMap (conceptStepRels read oracle project model files),
      t.flatMap (conceptStepRels read oracle project model files), by
        simp [List.append_assoc]⟩
  · rw [enrichModel_rules, hst, List.flatMap_append, List.flatMap_cons,
      conceptStepRules_of_ok read oracle project model files c e hres hok]
    exact ⟨model.rules ++
        s.flatMap (conceptStepRules read oracle project model files),
      t.flatMap (conceptStepRules read oracle project model files), by
        simp [List.append_assoc]⟩
  · rw [enrichModel_lifecycles, hst, List.flatMap_append, List.flatMap_cons,
      conceptStepLifecycles_of_ok read oracle project model files c e hres hok]
    exact ⟨model.lifecycles ++
        s.flatMap (conceptStepLifecycles read oracle project model files),
      t.flatMap (conceptStepLifecycles read oracle project model files), by
        simp [List.append_assoc]⟩

/-- Witness for the amended C4 at a concrete input: concept `B` enriched by a
well-behaved payload keeps its id and label and the returned relationship is
appended. -/
theorem enrichment_merge_amended_witness :
    (enrichModel wRead wOracleOk wProj wFiles mAlone).concepts[0]? =
      some (mergeEnrichedConcept wcB wEnrich.concept) ∧
    (mergeEnrichedConcept wcB wEnrich.concept).label = wcB.label ∧
    wEnrich.relationships <:+:
      (enrichModel wRead wOracleOk wProj wFiles mAlone).relationships := by
  have h := enrichment_merge_amended wRead wOracleOk wProj wFiles mAlone 0 wcB wEnrich
    (by decide) (by decide) rfl rfl
  exact ⟨h.1, h.2.2.1, h.2.2.2.1⟩

/-- Claim C2 counterexample: the enrichment request built for concept `B` is
character-for-character identical whether the model contains the sibling
concept `A` and an already-accumulated relationship (`mSib`) or neither
(`mAlone`).  The request therefore includes no snapshot of sibling concepts
and no accumulated relationships: `buildConceptEnrichmentPrompt` reads only
`project.name`, `model.title` and the own label of the concept, description and
id besides the snippets, and `enrichProjectModels` never passes the
accumulators to it. -/
theorem enrichment_prompt_counterexample :
    buildConceptEnrichmentPrompt wProj mSib wcB wSnips =
      buildConceptEnrichmentPrompt wProj mAlone wcB wSnips := rfl

/-- Claim C2 (amended): the enrichment request contains the bounded-size code
snippets plus only the project name, the Model title and the own fields of
the concept — it is invariant under any change to the sibling
concepts and accumulated relationships (and every other Model field but the
title, and every other project field but the name). -/
theorem enrichment_prompt_amended (p1 p2 : DiscoveredProject)
    (m1 m2 : DiscoveredModel) (c : DiscoveredConcept) (snips : List FileSnippet)
    (hname : p1.name = p2.name) (htitle : m1.title = m2.title) :
    buildConceptEnrichmentPrompt p1 m1 c snips =
      buildConceptEnrichmentPrompt p2 m2 c snips := by
  simp only [buildConceptEnrichmentPrompt, hname, htitle]

/-- Witness for the amended C2 at a concrete input: the two models differ in
their concept lists and relationship accumulators but share the title, so the
prompts agree. -/
theorem enrichment_prompt_amended_witness :
    buildConceptEnrichmentPrompt wProj mSib wcA wSnips =
      buildConceptEnrichmentPrompt wProj mAlone wcA wSnips :=
  enrichment_prompt_amended wProj wProj mSib mAlone wcA wSnips rfl rfl

/-- Claim C8: a concept none of whose evidence references resolve against the
file index is kept as-is minus its evidence list, the oracle is not called
for it (the result at its position is the same for every oracle), and
processing continues with the next concept.  The final conjunct is
Scenario A: in the model holding `A` (no resolvable reference) and `B` (one
resolvable reference), `A` comes out unchanged except references removed
while `B` carries the enrichment payload of the oracle. -/
theorem enrichment_soft_skip (read : String → String)
    (oracle : String → OracleReply) (project : DiscoveredProject)
    (files : List FileInfo) (model : DiscoveredModel)
    (i : Nat) (c : DiscoveredConcept) (hc : model.concepts[i]? = some c)
    (hres : (relevantFilesFor files c).isEmpty = true) :
    (enrichModel read oracle project files model).concepts[i]? = some c.toConcept ∧
    (∀ oracle2 : String → OracleReply,
      (enrichModel read oracle2 project files model).concepts[i]? = some c.toConcept) ∧
    (enrichModel read oracle project files model).concepts.length =
      model.concepts.length ∧
    (∀ j : Nat, (enrichModel read oracle project files model).concepts[j]? =
      (model.concepts[j]?).map (conceptStep read oracle project model files)) ∧
    (enrichModel wRead wOracleOk wProj wFiles wModel).concepts =
      [wcA.toConcept, mergeEnrichedConcept wcB wPatch] := by
  refine ⟨?_, ?_, ?_, ?_, rfl⟩
  · rw [enrichModel_concepts, List.getElem?_map, hc]
    simp [conceptStep_of_noFiles read oracle project model files c hres]
  · intro oracle2
    rw [enrichModel_concepts, List.getElem?_map, hc]
    simp [conceptStep_of_noFiles read oracle2 project model files c hres]
  · rw [enrichModel_concepts, List.length_map]
  · intro j
    rw [enrichModel_concepts, List.getElem?_map]

/-- Witness for C8 at a concrete input: concept `A` of Scenario A, whose only
reference does not resolve, is emitted as its reference-free skeleton. -/
theorem enrichment_soft_skip_witness :
    (enrichModel wRead wOracleOk wProj wFiles wModel).concepts[0]? =
      some wcA.toConcept := by
  have h := enrichment_soft_skip wRead wOracleOk wProj wFiles wModel 0 wcA
    (by decide) (by decide)
  exact h.1

/-! ### Claim theorems: Discovery convergence loop -/

theorem discoverLoop_calls_le (responses : Nat → List ConceptCandidate) (M : Nat) :
    ∀ (fuel iter : Nat) (acc : List ConceptCandidate) (hm : Bool) (calls : Nat),
      (discoverLoop responses M fuel iter acc hm calls).2 ≤ calls + (M + 1 - iter) := by
  intro fuel
  induction fuel with
  | zero =>
    intro iter acc hm calls
    simp only [discoverLoop]
    exact Nat.le_add_right calls (M + 1 - iter)
  | succ fuel ih =>
    intro iter acc hm calls
    simp only [discoverLoop]
    split
    · rename_i hguard
      have hiter : iter ≤ M := by
        have hand : hm = true ∧ decide (iter ≤ M) = true := by simpa using hguard
        exact of_decide_eq_true hand.2
      refine Nat.le_trans (ih (iter + 1) _ _ (calls + 1)) ?_
      omega
    · exact Nat.le_add_right calls (M + 1 - iter)

/-- Claim C5: the flat-document Discovery convergence loop issues at most
`maxIterations` oracle calls (the second component of `discoverConcepts`
counts one call per loop-body execution) and terminates — `discoverConcepts`
is a total function — for every response sequence, in particular for
never-stabilizing ones. -/
theorem discovery_iteration_bound (responses : Nat → List ConceptCandidate)
    (N : Nat) (_h : 1 ≤ N) : (discoverConcepts responses N).2 ≤ N := by
  have hle := discoverLoop_calls_le responses N (N + 1) 1 [] true 0
  simpa using hle

/-- Witness for C5 at a concrete input: a response sequence that produces a
fresh candidate name on every iteration still issues at most three calls
under `maxIterations = 3`. -/
theorem discovery_iteration_bound_witness :
    1 ≤ 3 ∧ (discoverConcepts freshResponses 3).2 ≤ 3 :=
  ⟨by decide, discovery_iteration_bound freshResponses 3 (by decide)⟩

/-- Claim C6 counterexample: deduplication happens only against the running
accumulator, not within a single response.  A response that itself contains
two candidates named `X` puts both into the accumulator, which then holds two
concepts with the same name — contradicting the claim that the accumulator
can at no point contain two concepts with the same name. -/
theorem discovery_dedup_counterexample :
    (((discoverConcepts dupResponses 5).1.map fun c => c.name) = ["X", "X"]) ∧
    ¬ (((discoverConcepts dupResponses 5).1.map fun c => c.name).Nodup) := by
  exact ⟨by decide, by decide⟩

theorem discoverLoop_names_nodup (responses : Nat → List ConceptCandidate)
    (M : Nat) (hresp : ∀ i, ((responses i).map fun c => c.name).Nodup) :
    ∀ (fuel iter : Nat) (acc : List ConceptCandidate) (hm : Bool) (calls : Nat),
      ((acc.map fun c => c.name).Nodup) →
      (((discoverLoop responses M fuel iter acc hm calls).1.map fun c => c.name).Nodup) := by
  intro fuel
  induction fuel with
  | zero =>
    intro iter acc hm calls hacc
    simpa [discoverLoop] using hacc
  | succ fuel ih =>
    intro iter acc hm calls hacc
    simp only [discoverLoop]
    split
    · apply ih
      split
      · exact hacc
      · rw [List.map_append, List.nodup_append]
        refine ⟨hacc, ?_, ?_⟩
        · exact ((hresp iter).sublist
            (List.Sublist.map _ (List.filter_sublist _)))
        · intro a ha hb
          obtain ⟨x, hx, hxa⟩ := List.mem_map.mp ha
          obtain ⟨y, hy, hya⟩ := List.mem_map.mp hb
          obtain ⟨hyresp, hypred⟩ := List.mem_filter.mp hy
          have hany : (acc.any fun e => e.name == y.name) = false := by
            simpa using hypred
          have hxfalse := (List.any_eq_false.mp hany) x hx
          apply hxfalse
          rw [hxa, hya]
          simp
    · exact hacc

/-- Claim C6 (amended): candidates are deduplicated by exact name against the
accumulator before entering it, so as long as each single response is itself
free of duplicate names, the accumulator never contains two concepts with the
same name — at the end of the loop and, by the second conjunct (which covers
every reachable intermediate state of `discoverLoop`), at every point during
it.  The amendment drops only the clause "including when a single response
of one iteration itself contains two concepts with the same name", which
the counterexample refutes. -/
theorem discovery_dedup_amended (responses : Nat → List ConceptCandidate)
    (N : Nat) (hresp : ∀ i, ((responses i).map fun c => c.name).Nodup) :
    (((discoverConcepts responses N).1.map fun c => c.name).Nodup) ∧
    (∀ (fuel iter : Nat) (acc : List ConceptCandidate) (hm : Bool) (calls : Nat),
      ((acc.map fun c => c.name).Nodup) →
      (((discoverLoop responses N fuel iter acc hm calls).1.map fun c => c.name).Nodup)) := by
  refine ⟨?_, discoverLoop_names_nodup responses N hresp⟩
  exact discoverLoop_names_nodup responses N hresp (N + 1) 1 [] true 0 (by simp)

/-- Witness for the amended C6 at a concrete input: duplicate-free responses
give a duplicate-free accumulator. -/
theorem discovery_dedup_amended_witness :
    (((discoverConcepts freshResponses 3).1.map fun c => c.name).Nodup) :=
  (discovery_dedup_amended freshResponses 3 (fun i => by simp [freshResponses])).1

/-! ### Claim theorems: Rationalization merge -/

/-- Claim C7 counterexample: the claim says every concept document whose name
appears in the name→new-label map ends with its label overwritten to the
mapped label, but the source guards the overwrite with the JavaScript
truthiness check `if (newContext)`, and the empty string is falsy: under a
proposal whose single context is named `""`, the name `"a"` is in the map
(mapped to `""`), yet the document keeps its original label `"Billing"`
instead of ending with the mapped label. -/
theorem rationalization_empty_label_counterexample :
    conceptToContextGet eProposal.contexts (wSheet "a" "Billing").metadata.name =
      some "" ∧
    rationalizeContexts eSheets eProposal = eSheets ∧
    (wSheet "a" "Billing").metadata.boundedContext = some "Billing" := by
  refine ⟨by decide, by decide, by decide⟩

/-- Claim C7 (amended): the Rationalization merge builds a name→new-label map
from the proposal (`conceptToContextGet`, with the JavaScript `Map.set`
last-write-wins semantics); every concept document whose name maps to a
non-empty label comes out with only its `boundedContext` overwritten to that
label, while a document whose name is absent from the map — or whose mapped
label is the empty string, which fails the `if (newContext)` truthiness
guard — comes out unchanged; no document is added, removed or reordered (the
output has the same length, position by position).  The final conjunct is
Scenario D: contexts `Billing: [a, b]`, `Payments: [c]` with proposal
`Finance: [a, b, c]` end with all three documents labelled `Finance`. -/
theorem rationalization_merge_amended (sheets : List ConceptSheet)
    (rat : ContextRationalization) :
    (rationalizeContexts sheets rat).length = sheets.length ∧
    (∀ (i : Nat) (s : ConceptSheet), sheets[i]? = some s →
      ((∃ L, conceptToContextGet rat.contexts s.metadata.name = some L ∧ L ≠ "" ∧
          (rationalizeContexts sheets rat)[i]? =
            some { s with metadata := { s.metadata with boundedContext := some L } }) ∨
        (∃ L, conceptToContextGet rat.contexts s.metadata.name = some L ∧ L = "" ∧
          (rationalizeContexts sheets rat)[i]? = some s) ∨
        (conceptToContextGet rat.contexts s.metadata.name = none ∧
          (rationalizeContexts sheets rat)[i]? = some s))) ∧
    ((rationalizeContexts dSheets dProposal).map fun s => s.metadata.boundedContext) =
      [some "Finance", some "Finance", some "Finance"] := by
  refine ⟨by simp [rationalizeContexts], ?_, by decide⟩
  intro i s hs
  rcases hL : conceptToContextGet rat.contexts s.metadata.name with _ | L
  · right; right
    exact ⟨rfl, by simp [rationalizeContexts, hs, hL]⟩
  · cases hE : L.isEmpty with
    | true =>
      right; left
      have hL0 : L = "" := (String.isEmpty_iff L).mp hE
      exact ⟨L, rfl, hL0, by simp [rationalizeContexts, hs, hL, hE]⟩
    | false =>
      left
      have hL0 : L ≠ "" := by
        intro h0
        rw [h0] at hE
        have : ("" : String).isEmpty = true := by decide
        rw [this] at hE
        exact Bool.noConfusion hE
      exact ⟨L, rfl, hL0, by simp [rationalizeContexts, hs, hL, hE]⟩

/-- Witness for the amended C7 at a concrete input: document `a` of
Scenario D ends with `boundedContext = "Finance"` and nothing else changed. -/
theorem rationalization_merge_amended_witness :
    (rationalizeContexts dSheets dProposal)[0]? =
      some { wSheet "a" "Billing" with
        metadata := { (wSheet "a" "Billing").metadata with
          boundedContext := some "Finance" } } := by
  have h := (rationalization_merge_amended dSheets dProposal).2.1 0
    (wSheet "a" "Billing") (by decide)
  have hget : conceptToContextGet dProposal.contexts
      (wSheet "a" "Billing").metadata.name = some "Finance" := by decide
  rcases h with ⟨L, hL, hne, hout⟩ | ⟨L, hL, hempty, _⟩ | ⟨hnone, _⟩
  · have hLF : L = "Finance" := Option.some.inj (hL.symm.trans hget)
    rw [hLF] at hout
    exact hout
  · have hLF : L = "Finance" := Option.some.inj (hL.symm.trans hget)
    rw [hLF] at hempty
    exact absurd hempty (by decide)
  · rw [hget] at hnone
    exact Option.noConfusion hnone

/-! ### Claim theorem: Story Synthesis output contract -/

/-- Claim C9 (spec-modelled): the Story Synthesis Stage implementation is not
under the sources, so the stage is modelled from §4.4 of the specification by
`storySynthesizeModel`.  For every per-Model oracle outcome: on failure the
Model receives the empty list (never aborting — the function is total), and
on success with a response meeting the output contract of the spec the stored
result consists of 2-5 StoryViews, each with 3-7 StorySteps whose `index`
fields are 0-based and strictly increasing by one (step `i` has index `i`). -/
theorem story_synthesis_contract (response : Option (List StoryView))
    (vs : List StoryView) (hr : response = some vs)
    (hcontract : storyContract vs = true) :
    storySynthesizeModel response = vs ∧
    2 ≤ (storySynthesizeModel response).length ∧
    (storySynthesizeModel response).length ≤ 5 ∧
    (∀ v ∈ storySynthesizeModel response,
      3 ≤ v.steps.length ∧ v.steps.length ≤ 7 ∧
      ∀ (i : Nat) (hi : i < v.steps.length), (v.steps.get ⟨i, hi⟩).index = i) ∧
    storySynthesizeModel none = [] := by
  subst hr
  simp only [storyContract, Bool.and_eq_true, decide_eq_true_eq,
    List.all_eq_true] at hcontract
  obtain ⟨⟨h2, h5⟩, hall⟩ := hcontract
  refine ⟨rfl, h2, h5, ?_, rfl⟩
  intro v hv
  have hview := hall v hv
  simp only [storyViewContract, Bool.and_eq_true, decide_eq_true_eq,
    List.all_eq_true] at hview
  obtain ⟨⟨h3, h7⟩, hidx⟩ := hview
  refine ⟨h3, h7, ?_⟩
  intro i hi
  have hienum : (i, v.steps.get ⟨i, hi⟩) ∈ v.steps.enum := by
    have hlen : i < v.steps.enum.length := by
      rw [List.enum_length]
      exact hi
    have hmem := List.getElem_mem hlen
    rw [List.getElem_enum] at hmem
    exact hmem
  have := hidx _ hienum
  simpa using this

/-- Witness for C9 at a concrete input: a successful response of two
three-step stories is stored as-is and meets the contract. -/
theorem story_synthesis_contract_witness :
    storySynthesizeModel (some wStories) = wStories ∧
    2 ≤ (storySynthesizeModel (some wStories)).length := by
  have h := story_synthesis_contract (some wStories) wStories rfl (by decide)
  exact ⟨h.1, h.2.1⟩

/-! ### Claim theorem: snippet extraction bound -/

theorem sizeLe_trans (a b c : FileInfo) :
    (decide (a.size ≤ b.size)) = true → (decide (b.size ≤ c.size)) = true →
    (decide (a.size ≤ c.size)) = true := by
  intro h1 h2
  exact decide_eq_true (Nat.le_trans (of_decide_eq_true h1) (of_decide_eq_true h2))

theorem sizeLe_total (a b : FileInfo) :
    ((decide (a.size ≤ b.size)) || (decide (b.size ≤ a.size))) = true := by
  rcases Nat.le_total a.size b.size with h | h
  · rw [decide_eq_true h]
    exact Bool.true_or _
  · rw [decide_eq_true h]
    exact Bool.or_true _

/-- Claim C10: with the default parameters (`maxFiles = 30`,
`maxCharsPerFile = 2000`), `extractSnippets` returns at most 30 snippets;
each snippet is a prefix of the content of its file, of at most 2000 characters;
and the selected files are the 30 smallest input files by size, in ascending
size order: the output is the image of a list `selected` that, together with
some `rest`, is a permutation of the input, is sorted ascending by size, has
`min 30 files.length` elements, and every selected file is no larger than
every unselected one. -/
theorem extractSnippets_bound (read : String → String) (files : List FileInfo) :
    (extractSnippets read files 30 2000).length ≤ 30 ∧
    (∀ s ∈ extractSnippets read files 30 2000,
      s.snippet.length ≤ 2000 ∧
      ∃ f ∈ files, s.relativePath = f.relativePath ∧
        s.snippet.data <+: (read f.path).data) ∧
    (∃ selected rest : List FileInfo,
      List.Perm (selected ++ rest) files ∧
      selected.length = min 30 files.length ∧
      selected.Pairwise (fun a b => a.size ≤ b.size) ∧
      (∀ f ∈ selected, ∀ g ∈ rest, f.size ≤ g.size) ∧
      extractSnippets read files 30 2000 =
        selected.map fun f =>
          { relativePath := f.relativePath, snippet := (read f.path).take 2000 }) := by
  have hperm : List.Perm (files.mergeSort fun a b => decide (a.size ≤ b.size)) files :=
    List.mergeSort_perm files _
  have hpair : (files.mergeSort fun a b => decide (a.size ≤ b.size)).Pairwise
      (fun a b => a.size ≤ b.size) := by
    have hsorted := List.sorted_mergeSort sizeLe_trans sizeLe_total files
    exact hsorted.imp fun h => of_decide_eq_true h
  refine ⟨?_, ?_, ?_⟩
  · simp only [extractSnippets, List.length_map, List.length_take]
    exact Nat.min_le_left _ _
  · intro s hs
    simp only [extractSnippets, List.mem_map] at hs
    obtain ⟨f, hf, hfs⟩ := hs
    have hfsorted : f ∈ files.mergeSort fun a b => decide (a.size ≤ b.size) :=
      (List.take_sublist _ _).mem hf
    have hffiles : f ∈ files := hperm.mem_iff.mp hfsorted
    refine ⟨?_, f, hffiles, ?_, ?_⟩
    · rw [← hfs]
      rw [← String.length_data, String.data_take, List.length_take]
      exact Nat.min_le_left _ _
    · rw [← hfs]
    · rw [← hfs]
      simp only [String.data_take]
      exact List.take_prefix _ _
  · refine ⟨(files.mergeSort fun a b => decide (a.size ≤ b.size)).take 30,
      (files.mergeSort fun a b => decide (a.size ≤ b.size)).drop 30, ?_, ?_, ?_, ?_, rfl⟩
    · rw [List.take_append_drop]
      exact hperm
    · rw [List.length_take, List.length_mergeSort]
    · exact hpair.sublist (List.take_sublist _ _)
    · have hsplit := hpair
      rw [← List.take_append_drop 30
        (files.mergeSort fun a b => decide (a.size ≤ b.size))] at hsplit
      exact (List.pairwise_append.mp hsplit).2.2

/-- Witness for C10 at a concrete input: a one-file index gives one snippet,
of at most 2000 characters. -/
theorem extractSnippets_bound_witness :
    (extractSnippets wRead [wFileW] 30 2000).length ≤ 30 ∧
    wSnipOut.snippet.length ≤ 2000 := by
  have h := extractSnippets_bound wRead [wFileW]
  refine ⟨h.1, ?_⟩
  have hsel : ([wFileW].mergeSort fun a b => decide (a.size ≤ b.size)) = [wFileW] :=
    List.mergeSort_singleton wFileW
  have htake : ([wFileW] : List FileInfo).take 30 = [wFileW] :=
    List.take_of_length_le (by simp)
  have hout : extractSnippets wRead [wFileW] 30 2000 = [wSnipOut] := by
    simp only [extractSnippets, hsel, htake, List.map_cons, List.map_nil]
    rfl
  have hmem : wSnipOut ∈ extractSnippets wRead [wFileW] 30 2000 := by
    rw [hout]
    exact List.mem_singleton.mpr rfl
  exact (h.2.1 _ hmem).1

end Conceptual
